import Mathlib

/-!
Verification development for the yang-lib YANG parser.

The TypeScript sources are shallowly embedded: JavaScript strings become
`List Char` / `String`, the insertion-ordered `Map` of sub-statements becomes
an association list preserving insertion order, JavaScript numbers become `ℚ`
(exact where doubles are exact; theorems about numeric text restrict
themselves to that regime), thrown exceptions become `Except Err`, and
in-place mutation of a statement node becomes explicit state passing (each
method returns its result together with the state of `this` when it returns
or throws).  `LexerError` objects that the source *returns* as token values
(rather than throwing) are embedded as a `Token` constructor.
-/

namespace YangLib

/-- Error values: thrown `LexerError`s, thrown `ParserError`s, JavaScript
runtime `TypeError`s (e.g. reading a property of `undefined`), and an
artificial marker used when the fuel of a loop that the source runs without
bound is exhausted (it models divergence of the source). -/
inductive Err where
  | lexError (msg : String)
  | parserError (msg : String)
  | typeError (msg : String)
  | outOfFuel
deriving DecidableEq

/-- RFC 6.2 identifier wrapper, from `unprocessed_stmt.ts` (`class Identifier`). -/
structure Identifier where
  content : String
deriving DecidableEq

/-- JavaScript string interpolation of an `Identifier` object (a class with no
`toString` override) yields this text; the source interpolates `this.identifier`
directly into two `ParserError` messages. -/
def identifierToString : String := "[object Object]"

/-- The untyped statement-tree node of `unprocessed_stmt.ts`
(`class UnprocessedStatement`).  `sub_statements` is the insertion-ordered map
from key to ordered sequence of children; `pfx` models the source's optional
`prefix` field. -/
inductive UnpStmt : Type where
  | mk : Identifier → Option String → Option String → List (String × List UnpStmt) → UnpStmt

def UnpStmt.identifier : UnpStmt → Identifier
  | .mk i _ _ _ => i

def UnpStmt.pfx : UnpStmt → Option String
  | .mk _ p _ _ => p

def UnpStmt.argument : UnpStmt → Option String
  | .mk _ _ a _ => a

def UnpStmt.subs : UnpStmt → List (String × List UnpStmt)
  | .mk _ _ _ s => s

def UnpStmt.withSubs : UnpStmt → List (String × List UnpStmt) → UnpStmt
  | .mk i p a _, s => .mk i p a s

def UnpStmt.withArgument : UnpStmt → Option String → UnpStmt
  | .mk i p _ s, a => .mk i p a s

/-- Lookup in the insertion-ordered map (JavaScript `Map.get`). -/
def mapGet (m : List (String × List UnpStmt)) (k : String) : Option (List UnpStmt) :=
  match m with
  | [] => none
  | (k', v) :: r => if k' = k then some v else mapGet r k

/-- Removal from the insertion-ordered map (JavaScript `Map.delete`),
preserving the order of the remaining entries. -/
def mapDelete (m : List (String × List UnpStmt)) (k : String) : List (String × List UnpStmt) :=
  match m with
  | [] => []
  | (k', v) :: r => if k' = k then r else (k', v) :: mapDelete r k

/-- Update in the insertion-ordered map (JavaScript `Map.set`): an existing key
keeps its position, a new key is appended. -/
def mapSet (m : List (String × List UnpStmt)) (k : String) (v : List UnpStmt) :
    List (String × List UnpStmt) :=
  match m with
  | [] => [(k, v)]
  | (k', v') :: r => if k' = k then (k, v) :: r else (k', v') :: mapSet r k v

/-- JavaScript truthiness of an optional string (`undefined` and `""` are falsy). -/
def jsTruthyStr (o : Option String) : Bool :=
  match o with
  | none => false
  | some s => s ≠ ""

/-- Key construction used throughout `unprocessed_stmt.ts`:
`prefix ? [identifier, prefix].join(":") : identifier`.  Note the source puts
the identifier first. -/
def joinKey (id : String) (p : Option String) : String :=
  if jsTruthyStr p then id ++ ":" ++ p.getD "" else id

/-- UnprocessedStatement.add: insert a child under its key, preserving
insertion order within the key's sequence. -/
def UnpStmt.addSub (s child : UnpStmt) : UnpStmt :=
  let key := joinKey child.identifier.content child.pfx
  match mapGet s.subs key with
  | some stmts => s.withSubs (mapSet s.subs key (stmts ++ [child]))
  | none => s.withSubs (s.subs ++ [(key, [child])])

/-- UnprocessedStatement.argumentOrError: take and clear the argument; a
missing or empty (falsy) argument is a `ParserError`.  The second component is
the state of the node when the method returns or throws. -/
def argumentOrError (s : UnpStmt) : Except Err String × UnpStmt :=
  match s.argument with
  | none => (.error (.parserError ("argument is mandatory for " ++ identifierToString)), s)
  | some a =>
      if a = "" then
        (.error (.parserError ("argument is mandatory for " ++ identifierToString)), s)
      else
        (.ok a, s.withArgument none)

/-- UnprocessedStatement.takeOne: exactly one child under the key, removed and
returned; otherwise a `ParserError` thrown before any mutation. -/
def takeOne (s : UnpStmt) (id : String) (p : Option String) :
    Except Err UnpStmt × UnpStmt :=
  let key := joinKey id p
  match mapGet s.subs key with
  | some [x] => (.ok x, s.withSubs (mapDelete s.subs key))
  | _ => (.error (.parserError ("cardinality error: there should be 1 " ++ key)), s)

/-- UnprocessedStatement.takeOptional: zero or one child under the key; more
than one is a `ParserError` thrown before any mutation. -/
def takeOptional (s : UnpStmt) (id : String) (p : Option String) :
    Except Err (Option UnpStmt) × UnpStmt :=
  let key := joinKey id p
  match mapGet s.subs key with
  | none => (.ok none, s.withSubs (mapDelete s.subs key))
  | some stmts =>
      if stmts.length > 1 then
        (.error (.parserError ("cardinality error: there should be 0..1 " ++ key)), s)
      else
        (.ok stmts.head?, s.withSubs (mapDelete s.subs key))

/-- UnprocessedStatement.takeOneOrMore: the full sequence under the key,
which must be non-empty; otherwise a `ParserError`. -/
def takeOneOrMore (s : UnpStmt) (id : String) (p : Option String) :
    Except Err (List UnpStmt) × UnpStmt :=
  let key := joinKey id p
  match mapGet s.subs key with
  | none => (.error (.parserError ("cardinality error: there should be 1..n " ++ key)), s)
  | some [] => (.error (.parserError ("cardinality error: there should be 1..n " ++ key)), s)
  | some stmts => (.ok stmts, s.withSubs (mapDelete s.subs key))

/-- UnprocessedStatement.takeZeroOrMore: the full (possibly empty) sequence
under the key; never fails. -/
def takeZeroOrMore (s : UnpStmt) (id : String) (p : Option String) :
    List UnpStmt × UnpStmt :=
  let key := joinKey id p
  ((mapGet s.subs key).getD [], s.withSubs (mapDelete s.subs key))

/-- UnprocessedStatement.ensureEmpty: a non-empty `sub_statements` map is a
`ParserError` naming the remaining keys; otherwise a still-set argument is a
`ParserError`. -/
def ensureEmpty (s : UnpStmt) : Except Err Unit :=
  if s.subs.length > 0 then
    .error (.parserError ("Found unknown substatements: " ++
      String.intercalate ", " (s.subs.map (fun e => e.1))))
  else
    match s.argument with
    | some _ =>
        .error (.parserError ("unexpected argument entry for substatement " ++
          identifierToString))
    | none => .ok ()

/-- The `Cardinality` enumeration of `unprocessed_stmt.ts`. -/
inductive Cardinality where
  | zeroOrOne
  | one
  | zeroOrMore
  | more
deriving DecidableEq

/-- A take-descriptor (`class TakeParam`); the source spells the first field
`idenfitier`. -/
structure TakeParam (α : Type) where
  idenfitier : String
  cardinality : Cardinality
  parseFunc : UnpStmt → Except Err α
  pfx : Option String := none

/-- One positional result of `takeAll`: a scalar (for `One` / `ZeroOrOne`,
always `some` for `One`) or a sequence (for `ZeroOrMore` / `More`). -/
inductive TakeItem (α : Type) where
  | single : Option α → TakeItem α
  | many : List α → TakeItem α
deriving DecidableEq

/-- The descriptor-processing loop of `takeAll` (the `forEach` over
`take_params`), threading the node state; a throw from a take operation or a
conversion function aborts the whole loop. -/
def processParams {α : Type} (params : List (TakeParam α)) (s : UnpStmt) :
    Except Err (List (TakeItem α) × UnpStmt) :=
  match params with
  | [] => .ok ([], s)
  | v :: rest =>
      match v.cardinality with
      | .zeroOrOne =>
          match takeOptional s v.idenfitier v.pfx with
          | (.error e, _) => .error e
          | (.ok none, s') =>
              match processParams rest s' with
              | .error e => .error e
              | .ok (items, s'') => .ok (.single none :: items, s'')
          | (.ok (some child), s') =>
              match v.parseFunc child with
              | .error e => .error e
              | .ok x =>
                  match processParams rest s' with
                  | .error e => .error e
                  | .ok (items, s'') => .ok (.single (some x) :: items, s'')
      | .zeroOrMore =>
          match takeZeroOrMore s v.idenfitier v.pfx with
          | (children, s') =>
              match children.mapM v.parseFunc with
              | .error e => .error e
              | .ok xs =>
                  match processParams rest s' with
                  | .error e => .error e
                  | .ok (items, s'') => .ok (.many xs :: items, s'')
      | .one =>
          match takeOne s v.idenfitier v.pfx with
          | (.error e, _) => .error e
          | (.ok child, s') =>
              match v.parseFunc child with
              | .error e => .error e
              | .ok x =>
                  match processParams rest s' with
                  | .error e => .error e
                  | .ok (items, s'') => .ok (.single (some x) :: items, s'')
      | .more =>
          -- The source's `Cardinality.More` case calls `takeZeroOrMore`, not
          -- `takeOneOrMore`; it is a byte-for-byte copy of the `ZeroOrMore`
          -- case.
          match takeZeroOrMore s v.idenfitier v.pfx with
          | (children, s') =>
              match children.mapM v.parseFunc with
              | .error e => .error e
              | .ok xs =>
                  match processParams rest s' with
                  | .error e => .error e
                  | .ok (items, s'') => .ok (.many xs :: items, s'')

/-- UnprocessedStatement.takeAll: process every descriptor, then assert the
node is fully consumed via `ensureEmpty`.  The returned node is the final
state of `this`. -/
def takeAll {α : Type} (params : List (TakeParam α)) (s : UnpStmt) :
    Except Err (List (TakeItem α) × UnpStmt) :=
  match processParams params s with
  | .error e => .error e
  | .ok (items, s₁) =>
      match ensureEmpty s₁ with
      | .error e => .error e
      | .ok _ => .ok (items, s₁)

/-- JavaScript whitespace as used by `trim` and by the lexer's per-character
`c.trim() == ""` test (the ASCII whitespace characters; the inputs of this
development contain no exotic Unicode whitespace). -/
def isJsWs (c : Char) : Bool :=
  c = ' ' || c = '\t' || c = '\n' || c = '\r' || c = '\x0b' || c = '\x0c'

/-- JavaScript `String.trimEnd`. -/
def jsTrimEnd (l : List Char) : List Char :=
  (l.reverse.dropWhile isJsWs).reverse

/-- JavaScript `String.trim`. -/
def jsTrim (l : List Char) : List Char :=
  jsTrimEnd (l.dropWhile isJsWs)

/-- JavaScript `String.split` on a single-character separator (no limit):
always returns at least one piece, and empty pieces are kept. -/
def jsSplitChar (sep : Char) : List Char → List (List Char)
  | [] => [[]]
  | c :: rest =>
      if c = sep then [] :: jsSplitChar sep rest
      else
        match jsSplitChar sep rest with
        | [] => [[c]]
        | h :: t => (c :: h) :: t

/-- JavaScript `String.split("..")`: split on the two-character separator,
scanning left to right (an occurrence consumes both dots). -/
def jsSplitDotDot : List Char → List (List Char)
  | [] => [[]]
  | [c] => [[c]]
  | c1 :: c2 :: rest =>
      if c1 = '.' ∧ c2 = '.' then [] :: jsSplitDotDot rest
      else
        match jsSplitDotDot (c2 :: rest) with
        | [] => [[c1]]
        | h :: t => (c1 :: h) :: t

/-- Value of a decimal digit string. -/
def digitsVal (l : List Char) : ℕ :=
  l.foldl (fun a c => 10 * a + (c.toNat - 48)) 0

/-- Decimal part of JavaScript `Number(string)` after sign stripping: one run
of digits, optionally with a single decimal point (at least one side
non-empty).  `none` is `NaN`.  Hexadecimal, exponent and `Infinity` forms of
JavaScript are outside the regime any theorem here evaluates. -/
def jsParseUnsigned (u : List Char) : Option ℚ :=
  match jsSplitChar '.' u with
  | [ip] =>
      if ip ≠ [] ∧ ip.all Char.isDigit then some (digitsVal ip : ℚ) else none
  | [ip, fp] =>
      if (ip ≠ [] ∨ fp ≠ []) ∧ ip.all Char.isDigit ∧ fp.all Char.isDigit then
        some ((digitsVal ip : ℚ) + (digitsVal fp : ℚ) / (10 : ℚ) ^ fp.length)
      else none
  | _ => none

/-- JavaScript unary plus / `Number(string)` on the decimal regime: trim,
empty means `0`, optional single sign, then `jsParseUnsigned`; `none` is
`NaN`. -/
def jsUnaryPlus (s : List Char) : Option ℚ :=
  let t := jsTrim s
  if t = [] then some 0
  else if t.head? = some '-' then (jsParseUnsigned (t.drop 1)).map (fun q => -q)
  else if t.head? = some '+' then jsParseUnsigned (t.drop 1)
  else jsParseUnsigned t

/-- convertNumber from `stmt.ts`: `+text`, rejecting only `NaN`. -/
def convertNumber (text : String) : Except Err ℚ :=
  match jsUnaryPlus text.data with
  | none =>
      .error (.parserError ("expected the string token '" ++ text ++ "' to be a number"))
  | some q => .ok q

/-- convertInteger from `stmt.ts`: `+text`, rejecting `NaN` and non-integers
(`Number.isInteger` is `den = 1` on the exact model). -/
def convertInteger (text : String) : Except Err ℚ :=
  match jsUnaryPlus text.data with
  | none =>
      .error (.parserError ("expected the string token '" ++ text ++ "' to be a number"))
  | some q =>
      if q.den = 1 then .ok q
      else .error (.parserError ("expected intger but found " ++ text))

/-- convertPositiveInteger from `stmt.ts`: `convertInteger`, additionally
rejecting negative values. -/
def convertPositiveInteger (text : String) : Except Err ℚ :=
  match convertInteger text with
  | .error e => .error e
  | .ok q =>
      if q < 0 then
        .error (.parserError ("bit position " ++ toString q.num ++
          " must be greater or equal to 0"))
      else .ok q

/-- convertBoolean from `stmt.ts`. -/
def convertBoolean (text : String) : Except Err Bool :=
  if text = "true" then .ok true
  else if text = "false" then .ok false
  else .error (.parserError ("invalid boolean format: '" ++ text ++ "'"))

/-- The `status` enumeration of `stmt.ts`. -/
inductive StatusStmt where
  | current
  | deprecated
  | obsolete
deriving DecidableEq

/-- convertStatusStmt from `stmt.ts`: absent text defaults to `current`; any
text other than the three enumerators is a `ParserError`. -/
def convertStatusStmt (text : Option String) : Except Err StatusStmt :=
  match text with
  | none => .ok .current
  | some t =>
      if t = "current" then .ok .current
      else if t = "deprecated" then .ok .deprecated
      else if t = "obsolete" then .ok .obsolete
      else .error (.parserError ("invalid status '" ++ t ++
        "', it can only be one of 'current', 'deprecated' or 'obsolete'"))

/-- The `ordered-by` enumeration of `stmt.ts`. -/
inductive OrderedByStmt where
  | system
  | user
deriving DecidableEq

/-- convertOrderedByStmt from `stmt.ts`: absent text defaults to `system`. -/
def convertOrderedByStmt (text : Option String) : Except Err OrderedByStmt :=
  match text with
  | none => .ok .system
  | some t =>
      if t = "system" then .ok .system
      else if t = "user" then .ok .user
      else .error (.parserError ("invalid ordered-by statement '" ++ t ++
        "', it can only be 'system' or 'user'"))

/-- Combined `takeOptional(key)?.argumentOrError()` of the source: the child's
argument (or `none` when the child is absent), with the parent's new state. -/
def takeOptArg (s : UnpStmt) (key : String) : Except Err (Option String) × UnpStmt :=
  match takeOptional s key none with
  | (.error e, s') => (.error e, s')
  | (.ok none, s') => (.ok none, s')
  | (.ok (some c), s') =>
      match (argumentOrError c).1 with
      | .error e => (.error e, s')
      | .ok a => (.ok (some a), s')

/-- MustStmt of `stmt.ts`. -/
structure MustStmt where
  arg : String
  error_message : Option String := none
  error_app_tag : Option String := none
  description : Option String := none
  reference : Option String := none
deriving DecidableEq

/-- MustStmt.parse from `stmt.ts`. -/
def MustStmt.parse (s0 : UnpStmt) : Except Err MustStmt := do
  let (argE, s) := argumentOrError s0
  let arg ← argE
  let (emE, s) := takeOptArg s "error-message"
  let em ← emE
  let (eaE, s) := takeOptArg s "error-app-tag"
  let ea ← eaE
  let (dE, s) := takeOptArg s "description"
  let d ← dE
  let (rE, _s) := takeOptArg s "reference"
  let r ← rE
  .ok ⟨arg, em, ea, d, r⟩

/-- WhenStmt of `stmt.ts`. -/
structure WhenStmt where
  arg : String
  description : Option String := none
  reference : Option String := none
deriving DecidableEq

/-- WhenStmt.parse from `stmt.ts`. -/
def WhenStmt.parse (s0 : UnpStmt) : Except Err WhenStmt := do
  let (argE, s) := argumentOrError s0
  let arg ← argE
  let (dE, s) := takeOptArg s "description"
  let d ← dE
  let (rE, _s) := takeOptArg s "reference"
  let r ← rE
  .ok ⟨arg, d, r⟩

/-- LeafListStmt of `stmt.ts`; the source spells the first field
`idenfifier`.  Numeric fields carry the exact value of the JavaScript
number. -/
structure LeafListStmt where
  idenfifier : Identifier
  if_feature : List String
  must : List MustStmt
  default_ : List String
  type : UnpStmt
  ordered_by : OrderedByStmt
  status : StatusStmt
  when_ : Option WhenStmt := none
  units : Option String := none
  config : Option Bool := none
  min_elements : Option ℚ := none
  max_elements : Option ℚ := none
  description : Option String := none
  reference : Option String := none

/-- LeafListStmt.parse from `stmt.ts`, with the source's operation order: the
optional children are taken first (`min-elements` / `max-elements` arguments
read immediately), then the constructor arguments are evaluated left to
right. -/
def LeafListStmt.parse (s0 : UnpStmt) : Except Err LeafListStmt := do
  let (argE, s) := argumentOrError s0
  let argStr ← argE
  let (obE, s) := takeOptional s "ordered-by" none
  let orderedByN ← obE
  let (whE, s) := takeOptional s "when" none
  let whenN ← whE
  let (unE, s) := takeOptional s "units" none
  let unitsN ← unE
  let (cfE, s) := takeOptional s "config" none
  let configN ← cfE
  let (minE, s) := takeOptArg s "min-elements"
  let minArg ← minE
  let (maxE, s) := takeOptArg s "max-elements"
  let maxArg ← maxE
  let (stE, s) := takeOptional s "status" none
  let statusN ← stE
  let (deE, s) := takeOptional s "description" none
  let descN ← deE
  let (reE, s) := takeOptional s "reference" none
  let refN ← reE
  let (ifs, s) := takeZeroOrMore s "if-feature" none
  let if_feature ← ifs.mapM (fun v => (argumentOrError v).1)
  let (musts, s) := takeZeroOrMore s "must" none
  let must ← musts.mapM MustStmt.parse
  let (defs, s) := takeZeroOrMore s "default" none
  let default_ ← defs.mapM (fun v => (argumentOrError v).1)
  let (tyE, _s) := takeOne s "type" none
  let type ← tyE
  let obArg ← match orderedByN with
    | none => pure none
    | some n => (argumentOrError n).1.map some
  let ordered_by ← convertOrderedByStmt obArg
  let stArg ← match statusN with
    | none => pure none
    | some n => (argumentOrError n).1.map some
  let status ← convertStatusStmt stArg
  let when_ ← match whenN with
    | none => pure none
    | some w => (WhenStmt.parse w).map some
  let units ← match unitsN with
    | none => pure none
    | some u => ((argumentOrError u).1).map some
  let config ← match configN with
    | none => pure none
    | some c => do
        let a ← (argumentOrError c).1
        (convertBoolean a).map some
  let min_elements ← match minArg with
    | none => pure none
    | some t => (convertNumber t).map some
  let max_elements ← match maxArg with
    | none => pure none
    | some t => (convertNumber t).map some
  let description ← match descN with
    | none => pure none
    | some d => ((argumentOrError d).1).map some
  let reference ← match refN with
    | none => pure none
    | some r => ((argumentOrError r).1).map some
  .ok ⟨⟨argStr⟩, if_feature, must, default_, type, ordered_by, status, when_,
      units, config, min_elements, max_elements, description, reference⟩

/-- LengthRange of `types.ts`: bounds carry the exact JavaScript number. -/
structure LengthRange where
  lower_bound : ℚ
  upper_bound : ℚ
deriving DecidableEq

/-- LengthRange constructor from `types.ts`: trim, split on `".."` with limit
2; a single piece is a degenerate range, otherwise both trimmed sides are
parsed by `convertPositiveInteger`. -/
def LengthRange.ofText (text : List Char) : Except Err LengthRange :=
  match (jsSplitDotDot (jsTrim text)).take 2 with
  | [b] =>
      match convertPositiveInteger (String.mk b) with
      | .error e => .error e
      | .ok num => .ok ⟨num, num⟩
  | [b1, b2] =>
      match convertPositiveInteger (String.mk (jsTrim b1)) with
      | .error e => .error e
      | .ok lo =>
          match convertPositiveInteger (String.mk (jsTrim b2)) with
          | .error e => .error e
          | .ok hi => .ok ⟨lo, hi⟩
  | _ => .error (.typeError "unreachable: split returns at least one piece")

/-- LengthRestriction of `types.ts`. -/
structure LengthRestriction where
  rules : List LengthRange
deriving DecidableEq

/-- The `forEach` of the `LengthRestriction` constructor: one `LengthRange`
per piece, aborting on the first throw. -/
def buildRanges : List (List Char) → Except Err (List LengthRange)
  | [] => .ok []
  | r :: rest =>
      match LengthRange.ofText r with
      | .error e => .error e
      | .ok range =>
          match buildRanges rest with
          | .error e => .error e
          | .ok rs => .ok (range :: rs)

/-- LengthRestriction constructor from `types.ts`: split the argument on `|`
and build one `LengthRange` per piece. -/
def LengthRestriction.ofText (arg : String) : Except Err LengthRestriction :=
  match buildRanges (jsSplitChar '|' arg.data) with
  | .error e => .error e
  | .ok rs => .ok ⟨rs⟩

/-- The single-quote character. -/
def squoteChar : Char := Char.ofNat 39

/-- The double-quote character. -/
def dquoteChar : Char := Char.ofNat 34

/-- The backslash character. -/
def backslashChar : Char := Char.ofNat 92

/-- JavaScript `String.startsWith`. -/
def jsStartsWith (p l : List Char) : Bool :=
  l.take p.length == p

/-- JavaScript `String.indexOf` for a substring: first index at which the
needle occurs, `-1` when absent (in particular, searching a string for a
character it starts with yields `0`). -/
def jsIndexOfSub (needle : List Char) : List Char → Int
  | [] => if needle = [] then 0 else -1
  | c :: rest =>
      if jsStartsWith needle (c :: rest) then 0
      else
        let r := jsIndexOfSub needle rest
        if r = -1 then -1 else r + 1

/-- JavaScript `String.indexOf` for a single character. -/
def jsIndexOfChar (c : Char) (l : List Char) : Int :=
  jsIndexOfSub [c] l

/-- JavaScript `String.slice` with one argument (negative start counts from
the end, clamped at zero). -/
def jsSliceFrom (l : List Char) (i : Int) : List Char :=
  if i < 0 then l.drop (((l.length : Int) + i).toNat) else l.drop i.toNat

/-- The token variants of `lexer.ts`.  The source's `getToken` and
`getSingleToken` return `LexerError` objects as values in several places
(rather than throwing them); those are the `lexErrorTok` variant. -/
inductive Token where
  | plusTok
  | commentTok
  | whiteSpaceTok
  | quotedStringTok (content : String)
  | blockBeginTok
  | blockEndTok
  | stringTok (content : String)
  | statementEndTok
  | endOfInputTok
  | lexErrorTok (msg : String)
deriving DecidableEq

/-- The lexer state of `lexer.ts`: byte offset, column, row, the input, and
the one-slot pushback buffer. -/
structure Lexer where
  pos : Nat
  col : Nat
  row : Nat
  input : List Char
  saved_token : Option Token
deriving DecidableEq

/-- The `Lexer` constructor. -/
def Lexer.init (input : List Char) : Lexer :=
  ⟨0, 0, 0, input, none⟩

/-- Lexer.saveToken: fill the one-slot pushback buffer. -/
def Lexer.saveToken (lx : Lexer) (t : Token) : Lexer :=
  { lx with saved_token := some t }

/-- The leading-whitespace scan of `trimSpaces`: `(count, i)` where `count`
weighs tabs as 8 columns and `i` is the number of characters scanned; `none`
models the source's early return on a newline (which cannot occur in a line
produced by splitting on newlines, but is kept for fidelity). -/
def trimLineScan : List Char → Option (Nat × Nat)
  | [] => some (0, 0)
  | c :: r =>
      if c = ' ' then (trimLineScan r).map (fun p => (p.1 + 1, p.2 + 1))
      else if c = '\t' then (trimLineScan r).map (fun p => (p.1 + 8, p.2 + 1))
      else if c = '\n' then none
      else some (0, 0)

/-- One line of `trimSpaces`: keep `count - indent` literal spaces when the
leading-whitespace width exceeds the indent, strip all leading whitespace
otherwise, and always strip trailing whitespace. -/
def trimLine (indent : Nat) (line : List Char) : List Char :=
  match trimLineScan line with
  | none => []
  | some (count, i) =>
      (if count > indent then List.replicate (count - indent) ' ' else []) ++
        jsTrimEnd (line.drop i)

/-- trimSpaces from `lexer.ts`: the RFC 7950 §6.1.3 indentation
normalization, applied per line and rejoined with newlines. -/
def trimSpaces (input : List Char) (indent : Nat) : List Char :=
  List.intercalate ['\n'] ((jsSplitChar '\n' input).map (trimLine indent))

/-- The double-quoted-string scan loop of `getSingleToken`: `rem` is the
input from index `i` on; returns the escaped content and the index of the
closing quote (running out of input at index `i` is the source's
`i >= current_string.length` throw).  Faithful to the source, the loop
advances by one character even after consuming an escape, so the character
after a backslash is processed again; the `length < i - 1` guard of the
source is dead and omitted, and an escape sequence hanging over the end of
the input hits the `switch` default. -/
def dqScan (rem : List Char) (i : Nat) (acc : List Char) :
    Except Err (List Char × Nat) :=
  match rem with
  | [] => .error (.lexError "expected ending symbol for double quoted string")
  | ch :: rest =>
      if ch = backslashChar then
        match rest with
        | [] => .error (.lexError "Invalid escaped character")
        | c2 :: _ =>
            if c2 = 'n' then dqScan rest (i + 1) (acc ++ ['\n'])
            else if c2 = 't' then dqScan rest (i + 1) (acc ++ ['\t'])
            else if c2 = dquoteChar then dqScan rest (i + 1) (acc ++ [dquoteChar])
            else if c2 = backslashChar then dqScan rest (i + 1) (acc ++ [backslashChar])
            else .error (.lexError "Invalid escaped character")
      else if ch = dquoteChar then .ok (acc, i)
      else dqScan rest (i + 1) (acc ++ [ch])

/-- The unquoted-string scan of `getSingleToken`: length of the token,
stopping at whitespace, a quote, `;`, `{`, `}`, or the start of a comment
(the comment lookahead is skipped on the last character). -/
def uqScan : List Char → Nat
  | [] => 0
  | c :: rest =>
      if isJsWs c || c = dquoteChar || c = squoteChar || c = ';' || c = '{' || c = '}' then 0
      else
        match rest with
        | [] => 1
        | c2 :: _ =>
            if c = '/' ∧ (c2 = '/' ∨ c2 = '*') then 0
            else 1 + uqScan rest

/-- Lexer.getSingleToken from `lexer.ts` (the raw-unit scanner).  Reading an
exhausted input dereferences `current_string[0]`, which is `undefined`, so
calling `.trim()` on it is a runtime `TypeError`.  In the single-quote
branch the source searches `indexOf` on the string that starts with the
quote itself (index 0) and never advances `pos`. -/
def getSingleToken (lx : Lexer) : Except Err (Token × Lexer) :=
  match lx.input.drop lx.pos with
  | [] => .error (.typeError "cannot read properties of undefined (reading trim)")
  | c :: rest =>
      let cs := c :: rest
      if isJsWs c then
        let i := (cs.takeWhile isJsWs).length
        let lines := jsSplitChar '\n' (cs.take i)
        .ok (.whiteSpaceTok,
          { lx with
            pos := lx.pos + i
            col := lx.col + (lines.getLastD []).length
            row := lx.row + (lines.length - 1) })
      else if jsStartsWith ['/', '/'] cs then
        let comment := (jsSplitChar '\n' cs).headD []
        .ok (.commentTok,
          { lx with
            pos := lx.pos + comment.length + 1
            col := 0
            row := lx.row + 1 })
      else if jsStartsWith ['/', '*'] cs then
        let ep := jsIndexOfSub ['*', '/'] cs
        if ep = -1 then .ok (.lexErrorTok "Missing end of block comment", lx)
        else
          let block := cs.take (ep.toNat + 2)
          let lines := jsSplitChar '\n' block
          .ok (.commentTok,
            { lx with
              pos := lx.pos + block.length
              col := (lines.getLastD []).length
              row := lx.row + (lines.length - 1) })
      else if c = ';' then
        .ok (.statementEndTok, { lx with pos := lx.pos + 1, col := lx.col + 1 })
      else if c = '{' then
        .ok (.blockBeginTok, { lx with pos := lx.pos + 1, col := lx.col + 1 })
      else if c = '}' then
        .ok (.blockEndTok, { lx with pos := lx.pos + 1, col := lx.col + 1 })
      else if c = '+' then
        .ok (.plusTok, { lx with pos := lx.pos + 1, col := lx.col + 1 })
      else if c = squoteChar then
        let ep := jsIndexOfSub [squoteChar] cs
        if ep = -1 then .ok (.lexErrorTok "Missing end of quoted string", lx)
        else
          let cur := cs.take (ep.toNat + 1)
          let lines := jsSplitChar '\n' cur
          .ok (.quotedStringTok (String.mk ((cur.drop 1).take (cur.length - 2))),
            { lx with
              col := (lines.getLastD []).length
              row := lx.row + (lines.length - 1) })
      else if c = dquoteChar then
        match dqScan rest 1 [] with
        | .error e => .error e
        | .ok (escaped, i) =>
            let trimmed := trimSpaces escaped (lx.col + 1)
            let lines := jsSplitChar '\n' (cs.take (i + 1))
            .ok (.quotedStringTok (String.mk trimmed),
              { lx with
                pos := lx.pos + i + 1
                col := (lines.getLastD []).length
                row := lx.row + (lines.length - 1) })
      else
        let i := uqScan cs
        .ok (.stringTok (String.mk (cs.take i)),
          { lx with pos := lx.pos + i, col := lx.col + i })

/-- The token-merging loop of `Lexer.getToken`, with its concatenation flag,
fragment buffer and parsed flag.  The fuel bounds the number of iterations;
`outOfFuel` models divergence of the source's unbounded loop.  The
end-of-input test is the source's `this.len() == 0` with JavaScript (signed)
subtraction, so a position beyond the end does not stop the loop. -/
def getTokenLoop : Nat → Lexer → Bool → String → Bool → Except Err (Token × Lexer)
  | 0, _, _, _, _ => .error .outOfFuel
  | fuel + 1, lx, concat_str, str, string_parsed =>
      if ((lx.input.length : Int) - lx.pos) = 0 then
        if string_parsed then .ok (.stringTok str, lx)
        else if concat_str then .ok (.lexErrorTok "eof after + symbol", lx)
        else .ok (.endOfInputTok, lx)
      else
        match getSingleToken lx with
        | .error e => .error e
        | .ok (tok, lx') =>
            match tok with
            | .whiteSpaceTok | .commentTok =>
                getTokenLoop fuel lx' concat_str str string_parsed
            | .plusTok =>
                if concat_str then
                  .ok (.lexErrorTok "unexpected + symbol after + symbol", lx')
                else getTokenLoop fuel lx' true str string_parsed
            | .quotedStringTok c =>
                if !concat_str && str.length > 0 then
                  .ok (.stringTok c, lx'.saveToken (.quotedStringTok c))
                else getTokenLoop fuel lx' false (str ++ c) true
            | other =>
                if concat_str then
                  .ok (.lexErrorTok "expected quoted string after + symbol", lx')
                else if string_parsed then .ok (.stringTok str, lx'.saveToken other)
                else .ok (other, lx')

/-- Lexer.getToken from `lexer.ts`: empty the pushback buffer first,
otherwise run the merging loop. -/
def getToken (fuel : Nat) (lx : Lexer) : Except Err (Token × Lexer) :=
  match lx.saved_token with
  | some t => .ok (t, { lx with saved_token := none })
  | none => getTokenLoop fuel lx false "" false

/-- Modelled from the spec: `Lexer.peek` is called by the tree parser but is
defined in no source file under src.  The spec describes it as a
non-consuming look-ahead of exactly one token, cached; with the one-slot
pushback buffer available, that is: get a token and save it back. -/
def peek (fuel : Nat) (lx : Lexer) : Except Err (Token × Lexer) :=
  match getToken fuel lx with
  | .error e => .error e
  | .ok (t, lx') => .ok (t, lx'.saveToken t)

/-- The keyword handling of `UnprocessedStatement.Parse`: split on `:`; when
a colon is present the prefix is the text before the first colon and the
identifier is `keyword.slice(keyword.indexOf(":"))` — the text from the
first colon on (the colon included). -/
def parseKeyword (keyword : String) : Identifier × Option String :=
  let parts := jsSplitChar ':' keyword.data
  let identifier :=
    if parts.length > 1 then jsSliceFrom keyword.data (jsIndexOfChar ':' keyword.data)
    else keyword.data
  let pfx := if parts.length > 1 then some (String.mk (parts.headD [])) else none
  (⟨String.mk identifier⟩, pfx)

/-- UnprocessedStatement.Parse from `unprocessed_stmt.ts`, with its child
loop: the two mutually recursive procedures (parse one statement; repeatedly
parse children into an accumulator) are fused into one fuel-indexed
function.  In `none` mode it parses one statement: peek the keyword (null —
`.ok (none, _)` — when the next token is not a string), consume it,
optionally consume a string argument, then require `;` (done) or `{`
(switch to the child loop); anything else is the
`unexpected end of statement` `ParserError`.  In `some acc` mode it runs the
source's `for(;;)` child loop, adding each parsed child to `acc` until the
statement parser returns null.  Nothing consumes the closing
`BlockEndToken`.  The fuel bounds the recursion depth; `outOfFuel` models
only computations deeper than the fuel. -/
def parseGo : Nat → Option UnpStmt → Lexer → Except Err (Option UnpStmt × Lexer)
  | 0, _, _ => .error .outOfFuel
  | fuel + 1, some acc, lx =>
      match parseGo fuel none lx with
      | .error e => .error e
      | .ok (none, lx') => .ok (some acc, lx')
      | .ok (some child, lx') => parseGo fuel (some (acc.addSub child)) lx'
  | fuel + 1, none, lx0 =>
      match peek (fuel + 1) lx0 with
      | .error e => .error e
      | .ok (t, lx1) =>
          match t with
          | .stringTok keyword =>
              match getToken (fuel + 1) lx1 with
              | .error e => .error e
              | .ok (_, lx2) =>
                  let kp := parseKeyword keyword
                  match peek (fuel + 1) lx2 with
                  | .error e => .error e
                  | .ok (t2, lx3) =>
                      match (match t2 with
                             | .stringTok a =>
                                 (match getToken (fuel + 1) lx3 with
                                  | .error e => .error e
                                  | .ok (_, lx4) => .ok (some a, lx4) :
                                   Except Err (Option String × Lexer))
                             | _ => .ok (none, lx3)) with
                      | .error e => .error e
                      | .ok (argOpt, lx4) =>
                          match getToken (fuel + 1) lx4 with
                          | .error e => .error e
                          | .ok (.statementEndTok, lx5) =>
                              .ok (some (UnpStmt.mk kp.1 kp.2 argOpt []), lx5)
                          | .ok (.blockBeginTok, lx5) =>
                              parseGo fuel (some (UnpStmt.mk kp.1 kp.2 argOpt [])) lx5
                          | .ok (_, _) => .error (.parserError "unexpected end of statement")
          | _ => .ok (none, lx1)

/-- UnprocessedStatement.Parse: the statement-mode entry point. -/
def ParseStmt (fuel : Nat) (lx : Lexer) : Except Err (Option UnpStmt × Lexer) :=
  parseGo fuel none lx

/-- Concrete test input `a { b { } c; }` (a statement following a nested
block inside the same parent block). -/
def nestedBlockInput : List Char := "a \x7b b \x7b \x7d c; \x7d".data

/-- Concrete test input: two double-quoted strings with no `+` between. -/
def twoQuotedInput : List Char := "\"a\" \"b\"".data

/-- Concrete test input: a terminated single-quoted string. -/
def singleQuotedInput : List Char := [squoteChar, 'a', 'b', 'c', squoteChar]

/-- Concrete test input: an unterminated single-quoted string. -/
def unterminatedSingleQuotedInput : List Char := [squoteChar, 'a', 'b', 'c']

/-- Concrete test input: a line comment at the very end of the input, not
followed by a newline. -/
def commentEofInput : List Char := "a //c".data

/-- Concrete test node: a `leaf-list` statement with a `type` child and a
`min-elements` child whose argument is `t`. -/
def leafListNodeMin (t : String) : UnpStmt :=
  UnpStmt.mk ⟨"leaf-list"⟩ none (some "my-list")
    [("type", [UnpStmt.mk ⟨"type"⟩ none (some "string") []]),
     ("min-elements", [UnpStmt.mk ⟨"min-elements"⟩ none (some t) []])]

/-- Concrete test node: a `leaf-list` statement with a `type` child and a
`max-elements` child whose argument is `t`. -/
def leafListNodeMax (t : String) : UnpStmt :=
  UnpStmt.mk ⟨"leaf-list"⟩ none (some "my-list")
    [("type", [UnpStmt.mk ⟨"type"⟩ none (some "string") []]),
     ("max-elements", [UnpStmt.mk ⟨"max-elements"⟩ none (some t) []])]

/-- Helper: a successful `ensureEmpty` means the node is fully consumed. -/
theorem ensureEmpty_ok (s : UnpStmt) (u : Unit) (h : ensureEmpty s = .ok u) :
    s.subs = [] ∧ s.argument = none := by
  unfold ensureEmpty at h
  by_cases hl : s.subs.length > 0
  · simp [hl] at h
  · rcases ha : s.argument with _ | a
    · exact ⟨List.length_eq_zero.mp (by omega), rfl⟩
    · simp [hl, ha] at h

/-- C1: after processing all descriptors, `takeAll` asserts the node is fully
consumed: a non-empty `sub_statements` map raises a `ParserError` naming the
remaining keys, a still-set argument raises a `ParserError`, and `takeAll`
returns normally only on a fully consumed node. -/
theorem takeAll_closed_world {α : Type} (params : List (TakeParam α)) (s s₁ : UnpStmt)
    (r : List (TakeItem α)) (h : processParams params s = .ok (r, s₁)) :
    (s₁.subs ≠ [] →
      takeAll params s = .error (.parserError ("Found unknown substatements: " ++
        String.intercalate ", " (s₁.subs.map (fun e => e.1))))) ∧
    (∀ a, s₁.subs = [] → s₁.argument = some a →
      takeAll params s = .error (.parserError
        ("unexpected argument entry for substatement " ++ identifierToString))) ∧
    (∀ r' s', takeAll params s = .ok (r', s') → s'.subs = [] ∧ s'.argument = none) := by
  refine ⟨?_, ?_, ?_⟩
  · intro hne
    have hl : 0 < s₁.subs.length := List.length_pos.mpr hne
    simp [takeAll, h, ensureEmpty, hl]
  · intro a hnil harg
    simp [takeAll, h, ensureEmpty, hnil, harg]
  · intro r' s' hok
    simp only [takeAll, h] at hok
    rcases he : ensureEmpty s₁ with e | u
    · rw [he] at hok; cases hok
    · rw [he] at hok
      cases hok
      exact ensureEmpty_ok s₁ u he

/-- C1 witness: a node with a leftover `units` substatement makes `takeAll`
(with an empty descriptor list) raise the closed-world `ParserError`. bound
discharged on the concrete input. -/
theorem takeAll_closed_world_witness :
    takeAll ([] : List (TakeParam Unit))
        (UnpStmt.mk ⟨"leaf"⟩ none none
          [("units", [UnpStmt.mk ⟨"units"⟩ none (some "m") []])]) =
      .error (.parserError "Found unknown substatements: units") :=
  (takeAll_closed_world ([] : List (TakeParam Unit))
      (UnpStmt.mk ⟨"leaf"⟩ none none
        [("units", [UnpStmt.mk ⟨"units"⟩ none (some "m") []])])
      (UnpStmt.mk ⟨"leaf"⟩ none none
        [("units", [UnpStmt.mk ⟨"units"⟩ none (some "m") []])])
      [] rfl).1 (by simp [UnpStmt.subs])

/-- C3: contrary to the claim, the source's `takeAll` applied with a
`Cardinality.More` descriptor to a node with no substatement under that key
returns normally with an empty sequence (its `More` case calls
`takeZeroOrMore`); the unused `takeOneOrMore` primitive is the one that
raises the 1..n cardinality `ParserError`. -/
theorem takeAll_more_accepts_empty :
    takeAll [TakeParam.mk "bit" .more (fun u => .ok u) none]
        (UnpStmt.mk ⟨"bits"⟩ none none []) =
      .ok ([.many []], UnpStmt.mk ⟨"bits"⟩ none none []) ∧
    (takeOneOrMore (UnpStmt.mk ⟨"bits"⟩ none none []) "bit" none).1 =
      .error (.parserError "cardinality error: there should be 1..n bit") := by
  constructor
  · rfl
  · rfl

/-- C9: when `takeOne` or `takeOptional` raises a cardinality `ParserError`,
the node is left unchanged: the offending key's sequence is not removed, no
other key is touched, and the argument is untouched. -/
theorem take_error_leaves_node_unchanged (s : UnpStmt) (id : String) (p : Option String) :
    (∀ e, (takeOne s id p).1 = .error e →
      (takeOne s id p).2 = s ∧
      (∀ k, mapGet (takeOne s id p).2.subs k = mapGet s.subs k) ∧
      (takeOne s id p).2.argument = s.argument) ∧
    (∀ e, (takeOptional s id p).1 = .error e →
      (takeOptional s id p).2 = s ∧
      (∀ k, mapGet (takeOptional s id p).2.subs k = mapGet s.subs k) ∧
      (takeOptional s id p).2.argument = s.argument) := by
  constructor
  · intro e he
    have h2 : (takeOne s id p).2 = s := by
      unfold takeOne at he ⊢
      rcases hm : mapGet s.subs (joinKey id p) with _ | stmts
      · simp [hm]
      · rcases stmts with _ | ⟨x, _ | ⟨y, t⟩⟩
        · simp [hm]
        · simp [hm] at he
        · simp [hm]
    exact ⟨h2, fun k => by rw [h2], by rw [h2]⟩
  · intro e he
    have h2 : (takeOptional s id p).2 = s := by
      unfold takeOptional at he ⊢
      rcases hm : mapGet s.subs (joinKey id p) with _ | stmts
      · simp [hm] at he
      · by_cases hl : stmts.length > 1
        · simp [hm, hl]
        · simp [hm, hl] at he
    exact ⟨h2, fun k => by rw [h2], by rw [h2]⟩

/-- C9 witness: a node with two `must` children makes both `takeOne` and
`takeOptional` raise, and the node is returned unchanged. -/
theorem take_error_leaves_node_unchanged_witness :
    (takeOne (UnpStmt.mk ⟨"leaf"⟩ none (some "x")
        [("must", [UnpStmt.mk ⟨"must"⟩ none (some "a") [],
                   UnpStmt.mk ⟨"must"⟩ none (some "b") []])]) "must" none).2 =
      UnpStmt.mk ⟨"leaf"⟩ none (some "x")
        [("must", [UnpStmt.mk ⟨"must"⟩ none (some "a") [],
                   UnpStmt.mk ⟨"must"⟩ none (some "b") []])] ∧
    (takeOptional (UnpStmt.mk ⟨"leaf"⟩ none (some "x")
        [("must", [UnpStmt.mk ⟨"must"⟩ none (some "a") [],
                   UnpStmt.mk ⟨"must"⟩ none (some "b") []])]) "must" none).2 =
      UnpStmt.mk ⟨"leaf"⟩ none (some "x")
        [("must", [UnpStmt.mk ⟨"must"⟩ none (some "a") [],
                   UnpStmt.mk ⟨"must"⟩ none (some "b") []])] :=
  ⟨((take_error_leaves_node_unchanged
      (UnpStmt.mk ⟨"leaf"⟩ none (some "x")
        [("must", [UnpStmt.mk ⟨"must"⟩ none (some "a") [],
                   UnpStmt.mk ⟨"must"⟩ none (some "b") []])]) "must" none).1
      (.parserError "cardinality error: there should be 1 must") rfl).1,
   ((take_error_leaves_node_unchanged
      (UnpStmt.mk ⟨"leaf"⟩ none (some "x")
        [("must", [UnpStmt.mk ⟨"must"⟩ none (some "a") [],
                   UnpStmt.mk ⟨"must"⟩ none (some "b") []])]) "must" none).2
      (.parserError "cardinality error: there should be 0..1 must") rfl).1⟩

/-- Helper: `trim` does not change a string with no whitespace character. -/
theorem jsTrim_no_ws (l : List Char) (h : ∀ c ∈ l, isJsWs c = false) :
    jsTrim l = l := by
  have hdrop : ∀ m : List Char, (∀ c ∈ m, isJsWs c = false) → m.dropWhile isJsWs = m := by
    intro m hm
    cases m with
    | nil => rfl
    | cons c r => simp [List.dropWhile_cons, hm c (by simp)]
  unfold jsTrim jsTrimEnd
  rw [hdrop l h, hdrop l.reverse (fun c hc => h c (List.mem_reverse.mp hc)),
    List.reverse_reverse]

/-- Helper: one-step unfolding of `jsSplitChar` on a cons cell. -/
theorem jsSplitChar_cons (sep c : Char) (r : List Char) :
    jsSplitChar sep (c :: r) =
      if c = sep then [] :: jsSplitChar sep r
      else
        match jsSplitChar sep r with
        | [] => [[c]]
        | h :: t => (c :: h) :: t := rfl

/-- Helper: splitting on a character that does not occur yields one piece. -/
theorem jsSplitChar_no_sep (sep : Char) (l : List Char) (h : ∀ c ∈ l, c ≠ sep) :
    jsSplitChar sep l = [l] := by
  induction l with
  | nil => rfl
  | cons c r ih =>
      rw [jsSplitChar_cons, if_neg (h c (by simp)),
        ih (fun x hx => h x (by simp [hx]))]

/-- Helper: splitting a string of the form `a ++ sep ++ b` where `a` avoids
the separator peels off `a`. -/
theorem jsSplitChar_append_sep (sep : Char) (a b : List Char) (ha : ∀ c ∈ a, c ≠ sep) :
    jsSplitChar sep (a ++ sep :: b) = a :: jsSplitChar sep b := by
  induction a with
  | nil =>
      rw [List.nil_append, jsSplitChar_cons, if_pos rfl]
  | cons c r ih =>
      rw [List.cons_append, jsSplitChar_cons, if_neg (ha c (by simp)),
        ih (fun x hx => ha x (by simp [hx]))]

/-- Helper: one-step unfolding of `jsSplitDotDot` on two cons cells. -/
theorem jsSplitDotDot_cons2 (c1 c2 : Char) (rest : List Char) :
    jsSplitDotDot (c1 :: c2 :: rest) =
      if c1 = '.' ∧ c2 = '.' then [] :: jsSplitDotDot rest
      else
        match jsSplitDotDot (c2 :: rest) with
        | [] => [[c1]]
        | h :: t => (c1 :: h) :: t := rfl

/-- Helper: splitting on `".."` when no dot occurs yields one piece. -/
theorem jsSplitDotDot_no_dot (l : List Char) (h : ∀ c ∈ l, c ≠ '.') :
    jsSplitDotDot l = [l] := by
  induction l with
  | nil => rfl
  | cons c r ih =>
      cases r with
      | nil => rfl
      | cons c2 r2 =>
          rw [jsSplitDotDot_cons2, if_neg (fun hcc => h c (by simp) hcc.1),
            ih (fun x hx => h x (by simp [hx]))]

/-- Helper: splitting `a ++ ".." ++ b` on `".."` where `a` has no dot peels
off `a`. -/
theorem jsSplitDotDot_append (a b : List Char) (ha : ∀ c ∈ a, c ≠ '.') :
    jsSplitDotDot (a ++ '.' :: '.' :: b) = a :: jsSplitDotDot b := by
  induction a with
  | nil =>
      rw [List.nil_append, jsSplitDotDot_cons2, if_pos ⟨rfl, rfl⟩]
  | cons c r ih =>
      cases r with
      | nil =>
          rw [List.cons_append, List.nil_append, jsSplitDotDot_cons2,
            if_neg (fun hcc => ha c (by simp) hcc.1), jsSplitDotDot_cons2,
            if_pos ⟨rfl, rfl⟩]
      | cons c2 r2 =>
          rw [List.cons_append, List.cons_append, jsSplitDotDot_cons2,
            if_neg (fun hcc => ha c (by simp) hcc.1)]
          rw [List.cons_append] at ih
          rw [ih (fun x hx => ha x (by simp [hx]))]

/-- Helper: a decimal digit differs from any non-digit character. -/
theorem digit_ne (c x : Char) (h : c.isDigit = true) (hx : x.isDigit = false) :
    c ≠ x := by
  intro e
  rw [e, hx] at h
  cases h

/-- Helper: a decimal digit is not JavaScript whitespace. -/
theorem digit_not_ws (c : Char) (h : c.isDigit = true) : isJsWs c = false := by
  unfold isJsWs
  have h0 : c ≠ ' ' := digit_ne c ' ' h (by decide)
  have h1 : c ≠ '\t' := digit_ne c '\t' h (by decide)
  have h2 : c ≠ '\n' := digit_ne c '\n' h (by decide)
  have h3 : c ≠ '\r' := digit_ne c '\r' h (by decide)
  have h4 : c ≠ '\x0b' := digit_ne c '\x0b' h (by decide)
  have h5 : c ≠ '\x0c' := digit_ne c '\x0c' h (by decide)
  simp [h0, h1, h2, h3, h4, h5]

/-- Helper: the unsigned decimal scan evaluates a pure digit string. -/
theorem jsParseUnsigned_digits (d : List Char) (hne : d ≠ [])
    (hd : d.all Char.isDigit = true) :
    jsParseUnsigned d = some (digitsVal d : ℚ) := by
  have hdot : ∀ c ∈ d, c ≠ '.' :=
    fun c hc => digit_ne c '.' (List.all_eq_true.mp hd c hc) (by decide)
  unfold jsParseUnsigned
  rw [jsSplitChar_no_sep '.' d hdot]
  simp [hne, hd]

/-- Helper: JavaScript `Number` evaluates a pure digit string. -/
theorem jsUnaryPlus_digits (d : List Char) (hne : d ≠ [])
    (hd : d.all Char.isDigit = true) :
    jsUnaryPlus d = some (digitsVal d : ℚ) := by
  have hws : ∀ c ∈ d, isJsWs c = false :=
    fun c hc => digit_not_ws c (List.all_eq_true.mp hd c hc)
  unfold jsUnaryPlus
  rw [jsTrim_no_ws d hws]
  cases d with
  | nil => exact absurd rfl hne
  | cons c r =>
      have hcd : c.isDigit = true := List.all_eq_true.mp hd c (by simp)
      have hminus : c ≠ '-' := digit_ne c '-' hcd (by decide)
      have hplus : c ≠ '+' := digit_ne c '+' hcd (by decide)
      simp only [List.head?_cons, reduceCtorEq, Option.some.injEq]
      rw [if_neg (by simp), if_neg (by simp [hminus]), if_neg (by simp [hplus])]
      exact jsParseUnsigned_digits (c :: r) hne hd

/-- Helper: JavaScript `Number` evaluates a minus sign followed by digits. -/
theorem jsUnaryPlus_neg_digits (d : List Char) (hne : d ≠ [])
    (hd : d.all Char.isDigit = true) :
    jsUnaryPlus ('-' :: d) = some (-(digitsVal d : ℚ)) := by
  have hws : ∀ c ∈ '-' :: d, isJsWs c = false := by
    intro c hc
    rcases List.mem_cons.mp hc with h | h
    · rw [h]; decide
    · exact digit_not_ws c (List.all_eq_true.mp hd c h)
  unfold jsUnaryPlus
  rw [jsTrim_no_ws _ hws]
  rw [if_neg (by simp), if_pos (by simp)]
  simp [jsParseUnsigned_digits d hne hd]

/-- Helper: `convertPositiveInteger` accepts a pure digit string. -/
theorem convertPositiveInteger_digits (d : List Char) (hne : d ≠ [])
    (hd : d.all Char.isDigit = true) :
    convertPositiveInteger (String.mk d) = .ok (digitsVal d : ℚ) := by
  unfold convertPositiveInteger convertInteger
  rw [show (String.mk d).data = d from rfl, jsUnaryPlus_digits d hne hd]
  have hpos : ¬((digitsVal d : ℚ) < 0) := not_lt.mpr (Nat.cast_nonneg _)
  simp [hpos]

/-- Helper: a digit string is not whitespace and carries no dot, so the range
text `a ++ ".." ++ b` parses to the pair of bounds. -/
theorem lengthRange_pair (a b : List Char) (hna : a ≠ []) (hnb : b ≠ [])
    (hda : a.all Char.isDigit = true) (hdb : b.all Char.isDigit = true) :
    LengthRange.ofText (a ++ '.' :: '.' :: b) =
      .ok ⟨(digitsVal a : ℚ), (digitsVal b : ℚ)⟩ := by
  have hwsa : ∀ c ∈ a, isJsWs c = false :=
    fun c hc => digit_not_ws c (List.all_eq_true.mp hda c hc)
  have hwsb : ∀ c ∈ b, isJsWs c = false :=
    fun c hc => digit_not_ws c (List.all_eq_true.mp hdb c hc)
  have hws : ∀ c ∈ a ++ '.' :: '.' :: b, isJsWs c = false := by
    intro c hc
    rcases List.mem_append.mp hc with h | h
    · exact hwsa c h
    · rcases List.mem_cons.mp h with h2 | h2
      · rw [h2]; decide
      · rcases List.mem_cons.mp h2 with h3 | h3
        · rw [h3]; decide
        · exact hwsb c h3
  have hdota : ∀ c ∈ a, c ≠ '.' :=
    fun c hc => digit_ne c '.' (List.all_eq_true.mp hda c hc) (by decide)
  have hdotb : ∀ c ∈ b, c ≠ '.' :=
    fun c hc => digit_ne c '.' (List.all_eq_true.mp hdb c hc) (by decide)
  rw [LengthRange.ofText.eq_def]
  rw [jsTrim_no_ws _ hws, jsSplitDotDot_append a b hdota, jsSplitDotDot_no_dot b hdotb]
  simp [jsTrim_no_ws a hwsa, jsTrim_no_ws b hwsb,
    convertPositiveInteger_digits a hna hda, convertPositiveInteger_digits b hnb hdb]

/-- Helper: a bare digit string parses to the degenerate range. -/
theorem lengthRange_single (c : List Char) (hnc : c ≠ [])
    (hdc : c.all Char.isDigit = true) :
    LengthRange.ofText c = .ok ⟨(digitsVal c : ℚ), (digitsVal c : ℚ)⟩ := by
  have hws : ∀ x ∈ c, isJsWs x = false :=
    fun x hx => digit_not_ws x (List.all_eq_true.mp hdc x hx)
  have hdot : ∀ x ∈ c, x ≠ '.' :=
    fun x hx => digit_ne x '.' (List.all_eq_true.mp hdc x hx) (by decide)
  rw [LengthRange.ofText.eq_def]
  rw [jsTrim_no_ws _ hws, jsSplitDotDot_no_dot c hdot]
  simp [convertPositiveInteger_digits c hnc hdc]

/-- C8: a `LengthRestriction` built from text `a..b|c` (decimal integer
literals, each short enough for the JavaScript double to be exact) has
exactly two ranges, the first with the two bounds and the second degenerate;
one built from the bare number `5` has the single degenerate range `5..5`. -/
theorem lengthRestriction_round_trip (a b c : List Char)
    (hna : a ≠ []) (hnb : b ≠ []) (hnc : c ≠ [])
    (hda : a.all Char.isDigit = true) (hdb : b.all Char.isDigit = true)
    (hdc : c.all Char.isDigit = true)
    (_hla : a.length ≤ 15) (_hlb : b.length ≤ 15) (_hlc : c.length ≤ 15) :
    LengthRestriction.ofText (String.mk (a ++ '.' :: '.' :: (b ++ '|' :: c))) =
      .ok ⟨[⟨(digitsVal a : ℚ), (digitsVal b : ℚ)⟩,
            ⟨(digitsVal c : ℚ), (digitsVal c : ℚ)⟩]⟩ ∧
    LengthRestriction.ofText "5" = .ok ⟨[⟨5, 5⟩]⟩ := by
  constructor
  · have hpipe : ∀ x ∈ a ++ '.' :: '.' :: b, x ≠ '|' := by
      intro x hx
      rcases List.mem_append.mp hx with h | h
      · exact digit_ne x '|' (List.all_eq_true.mp hda x h) (by decide)
      · rcases List.mem_cons.mp h with h2 | h2
        · rw [h2]; decide
        · rcases List.mem_cons.mp h2 with h3 | h3
          · rw [h3]; decide
          · exact digit_ne x '|' (List.all_eq_true.mp hdb x h3) (by decide)
    have hpipec : ∀ x ∈ c, x ≠ '|' :=
      fun x hx => digit_ne x '|' (List.all_eq_true.mp hdc x hx) (by decide)
    have hassoc : a ++ '.' :: '.' :: (b ++ '|' :: c) =
        (a ++ '.' :: '.' :: b) ++ '|' :: c := by simp
    rw [LengthRestriction.ofText.eq_def]
    rw [show (String.mk (a ++ '.' :: '.' :: (b ++ '|' :: c))).data =
        a ++ '.' :: '.' :: (b ++ '|' :: c) from rfl]
    rw [hassoc, jsSplitChar_append_sep '|' _ c hpipe, jsSplitChar_no_sep '|' c hpipec]
    simp only [buildRanges, lengthRange_pair a b hna hnb hda hdb,
      lengthRange_single c hnc hdc]
  · rfl

/-- Helper: `convertNumber` accepts a minus sign followed by digits, with no
check against negative values. -/
theorem convertNumber_neg_digits (d : List Char) (hne : d ≠ [])
    (hd : d.all Char.isDigit = true) :
    convertNumber (String.mk ('-' :: d)) = .ok (-(digitsVal d : ℚ)) := by
  rw [convertNumber.eq_def]
  rw [show (String.mk ('-' :: d)).data = '-' :: d from rfl]
  rw [jsUnaryPlus_neg_digits d hne hd]

/-- Helper: `convertNumber` accepts a pure digit string. -/
theorem convertNumber_digits (d : List Char) (hne : d ≠ [])
    (hd : d.all Char.isDigit = true) :
    convertNumber (String.mk d) = .ok (digitsVal d : ℚ) := by
  rw [convertNumber.eq_def]
  rw [show (String.mk d).data = d from rfl]
  rw [jsUnaryPlus_digits d hne hd]

/-- C7 counterexample: contrary to the claim, a `min-elements` argument of
`-1` does not raise a `ParserError`: `LeafListStmt.parse` succeeds and stores
`-1` as the numeric field. -/
theorem leafList_negative_min_elements_accepted :
    LeafListStmt.parse (leafListNodeMin "-1") =
      .ok ⟨⟨"my-list"⟩, [], [], [], UnpStmt.mk ⟨"type"⟩ none (some "string") [],
        .system, .current, none, none, none, some (-1), none, none, none⟩ := rfl

/-- C7 amended: `LeafListStmt.parse` interprets a present `min-elements` or
`max-elements` argument as a JavaScript number via `convertNumber`: text that
is not numeric raises a `ParserError`, but any numeric text — including every
negative integer — is accepted and stored as the numeric field, with no
non-negativity check. -/
theorem leafList_min_elements_numeric :
    (∀ d : List Char, d ≠ [] → d.all Char.isDigit = true →
      convertNumber (String.mk ('-' :: d)) = .ok (-(digitsVal d : ℚ))) ∧
    (∀ d : List Char, d ≠ [] → d.all Char.isDigit = true →
      convertNumber (String.mk d) = .ok (digitsVal d : ℚ)) ∧
    LeafListStmt.parse (leafListNodeMax "-3") =
      .ok ⟨⟨"my-list"⟩, [], [], [], UnpStmt.mk ⟨"type"⟩ none (some "string") [],
        .system, .current, none, none, none, none, some (-3), none, none⟩ ∧
    LeafListStmt.parse (leafListNodeMin "x1") =
      .error (.parserError "expected the string token 'x1' to be a number") :=
  ⟨convertNumber_neg_digits, convertNumber_digits, rfl, rfl⟩

/-- C7 witness: the amended statement applied at the digit string `27`. -/
theorem leafList_min_elements_numeric_witness :
    convertNumber "-27" = .ok (-27) ∧ convertNumber "27" = .ok 27 :=
  ⟨leafList_min_elements_numeric.1 ['2', '7'] (by decide) (by decide),
   leafList_min_elements_numeric.2.1 ['2', '7'] (by decide) (by decide)⟩

/-- C8 witness: the round trip at `12..34|567`. -/
theorem lengthRestriction_round_trip_witness :
    LengthRestriction.ofText "12..34|567" =
      .ok ⟨[⟨12, 34⟩, ⟨567, 567⟩]⟩ ∧
    LengthRestriction.ofText "5" = .ok ⟨[⟨5, 5⟩]⟩ :=
  lengthRestriction_round_trip ['1', '2'] ['3', '4'] ['5', '6', '7']
    (by decide) (by decide) (by decide) (by decide) (by decide) (by decide)
    (by decide) (by decide) (by decide)

/-- C2: contrary to the claim, the tree parser does not give a 1:1
correspondence with the source statements.  On `a { b { } c; }` it returns
`a` with the single child `b`; the closing brace of `b`'s block is never
consumed (it sits in the pushback buffer and also terminates `a`'s child
loop), so `c;` is never parsed and does not appear as a substatement of
`a` — the lexer stops at position 9, before the `c`. -/
theorem parse_drops_statement_after_nested_block :
    ParseStmt 100 (Lexer.init nestedBlockInput) =
      .ok (some (UnpStmt.mk ⟨"a"⟩ none none
          [("b", [UnpStmt.mk ⟨"b"⟩ none none []])]),
        ⟨9, 9, 0, nestedBlockInput, some .blockEndTok⟩) ∧
    nestedBlockInput.length = 14 := by
  exact ⟨by rfl, by rfl⟩

/-- C4: contrary to the claim, a keyword containing a colon keeps the colon
in the identifier: `keyword.slice(keyword.indexOf(":"))` starts at the colon
itself, so `yang:date-and-time` yields identifier `:date-and-time` (with
prefix `yang`), both in the keyword split and in a full `Parse` run. -/
theorem parse_keyword_keeps_colon :
    parseKeyword "yang:date-and-time" = (⟨":date-and-time"⟩, some "yang") ∧
    ParseStmt 100 (Lexer.init "yang:date-and-time;".data) =
      .ok (some (UnpStmt.mk ⟨":date-and-time"⟩ (some "yang") none []),
        ⟨19, 19, 0, "yang:date-and-time;".data, none⟩) := by
  exact ⟨by rfl, by rfl⟩

/-- C5: contrary to the claim, when a quoted string arrives with a fragment
already accumulated and no pending `+`, `getToken` pushes the quoted token
back but returns the NEW quoted content as the `StringToken`, not the
accumulated fragment: on `"a" "b"` the first `getToken` returns `b` (the
fragment `a` is lost) while `b` also sits in the pushback buffer, to be
delivered again by the next call. -/
theorem getToken_returns_new_quoted_content :
    getToken 30 (Lexer.init twoQuotedInput) =
      .ok (.stringTok "b", ⟨7, 3, 0, twoQuotedInput, some (.quotedStringTok "b")⟩) ∧
    getToken 30 ⟨7, 3, 0, twoQuotedInput, some (.quotedStringTok "b")⟩ =
      .ok (.quotedStringTok "b", ⟨7, 3, 0, twoQuotedInput, none⟩) := by
  exact ⟨by rfl, by rfl⟩

/-- C6: contrary to the claim, the single-quote branch of the raw-unit
scanner searches `indexOf` on the text that starts with the opening quote
itself, so it finds index 0: on `'abc'` it returns a quoted token with
content `""` (not `abc`) and does not advance the position at all (the
branch never updates `pos`), which makes `getToken` diverge; an unterminated
`'abc` behaves identically instead of raising a fatal `LexerError`. -/
theorem getSingleToken_single_quote_stuck :
    getSingleToken (Lexer.init singleQuotedInput) =
      .ok (.quotedStringTok "", ⟨0, 1, 0, singleQuotedInput, none⟩) ∧
    getSingleToken (Lexer.init unterminatedSingleQuotedInput) =
      .ok (.quotedStringTok "", ⟨0, 1, 0, unterminatedSingleQuotedInput, none⟩) ∧
    getToken 50 (Lexer.init singleQuotedInput) = .error .outOfFuel := by
  exact ⟨by rfl, by rfl, by rfl⟩

/-- C10: contrary to the claim, a line comment at the end of the input with
no trailing newline makes the lexer advance its position one past the end
(`comment.length + 1` for a newline that is not there): on `a //c` (length
5) the comment branch sets `pos = 6`, and the next `getToken` — instead of
returning `EndOfInputToken` — fails the `len() == 0` test (the signed length
is `-1`) and crashes with a `TypeError` reading `current_string[0]` of the
empty slice. -/
theorem lexer_overruns_input_on_trailing_line_comment :
    getToken 50 (Lexer.init commentEofInput) =
      .ok (.stringTok "a", ⟨1, 1, 0, commentEofInput, none⟩) ∧
    getToken 50 (⟨1, 1, 0, commentEofInput, none⟩ : Lexer) =
      .error (.typeError "cannot read properties of undefined (reading trim)") ∧
    getSingleToken ⟨2, 2, 0, commentEofInput, none⟩ =
      .ok (.commentTok, ⟨6, 0, 1, commentEofInput, none⟩) ∧
    commentEofInput.length = 5 := by
  exact ⟨by rfl, by rfl, by rfl, by rfl⟩

end YangLib
